import Mathlib

/-!
Verification of the gemini web-to-api session client
(`internal/providers/gemini/constants.go` and the simplified client in the
repository's second gemini source file).

Go strings are modelled as Lean `String`s; the byte-level operations the code
performs (`strings.Split`, `strings.TrimSpace`, `strings.TrimPrefix`, regexp
search, slicing) are modelled as executable functions over `String.data`
(`List Char`).  JSON decoding by `encoding/json.Unmarshal` into `[]interface{}`
is a standard-library call, so it is passed in as a parameter
`dec : String → Option (List JVal)`; every theorem quantifies over it, and
witnesses instantiate it with decoders that behave exactly like
`encoding/json` on the concrete strings involved.
-/

/-- Model of a Go `interface{}` value produced by `encoding/json.Unmarshal`:
nil, bool, number (`float64` in Go, abstracted to `Int` here — no claim
depends on numeric values), string, `[]interface{}`, or
`map[string]interface{}`. -/
inductive JVal where
  | null : JVal
  | bool : Bool → JVal
  | num : Int → JVal
  | str : String → JVal
  | arr : List JVal → JVal
  | obj : List (String × JVal) → JVal

/-- Character class trimmed by Go `strings.TrimSpace` (`unicode.IsSpace`):
space, tab, newline, vertical tab, form feed, carriage return, NEL, NBSP. -/
def goIsSpace (c : Char) : Bool :=
  c = ' ' || c = '\t' || c = '\n' || c = '\x0b' || c = '\x0c' || c = '\r' ||
  c = '\x85' || c = '\xa0'

/-- Go `strings.TrimSpace` on the character list of a string. -/
def trimSpaceChars (cs : List Char) : List Char :=
  ((cs.dropWhile goIsSpace).reverse.dropWhile goIsSpace).reverse

/-- Go `strings.Split(text, "\n")`: split at every newline, keeping empty
fragments; on the empty string it yields one empty fragment. -/
def splitNewline (cs : List Char) : List (List Char) :=
  match cs with
  | [] => [[]]
  | c :: rest =>
    match splitNewline rest with
    | [] => if c = '\n' then [[], []] else [[c]]
    | h :: t => if c = '\n' then [] :: h :: t else (c :: h) :: t

/-- The anti-hijacking marker `)]}'` that Gemini prepends to response lines
(the third character is a closing brace, the fourth an apostrophe). -/
def antiHijackMagic : List Char := [')', ']', '\x7d', '\x27']

/-- Go `strings.TrimPrefix(line, ")]}'")`: drop the four-character
anti-hijacking marker when the line starts with it. -/
def trimAntiHijack (cs : List Char) : List Char :=
  match cs with
  | ')' :: ']' :: '\x7d' :: '\x27' :: rest => rest
  | _ => cs

/-- The response record built by `parseResponse` in
`internal/providers/gemini/constants.go`: the answer text plus the three
conversation-metadata entries of the `Metadata` map (`rid` is declared in the
Go function but never assigned, so it is always empty). -/
structure GenResponse where
  text : String
  cid : String
  rid : String
  rcid : String
deriving DecidableEq, Repr

/-- The Go pattern `if id, ok := v.(string); ok { out = id }` applied to an
optional decoded value: keep the string if the element exists and is a
string, otherwise the empty string. -/
def metaStr (v : Option JVal) : String :=
  match v with
  | some (JVal.str s) => s
  | _ => ""

/-- One iteration of the inner `for _, item := range root` loop of
`parseResponse` (constants.go): the item must be an array of at least three
elements, its third element a string that decodes to a payload array of more
than four elements, whose fifth element is the candidates array; the first
candidate must be an array of at least two elements whose second element is
the content-parts array, whose first element is the answer string. -/
def extractFromItem (dec : String → Option (List JVal)) (item : JVal) :
    Option GenResponse :=
  match item with
  | JVal.arr itemArray =>
    if itemArray.length < 3 then none
    else
      match itemArray[2]? with
      | some (JVal.str payloadStr) =>
        match dec payloadStr with
        | some payload =>
          if 4 < payload.length then
            match payload[4]? with
            | some (JVal.arr candidates) =>
              match candidates with
              | JVal.arr firstCandidate :: _ =>
                if 2 ≤ firstCandidate.length then
                  match firstCandidate[1]? with
                  | some (JVal.arr contentParts) =>
                    match contentParts with
                    | JVal.str resText :: _ =>
                      some { text := resText
                             cid := metaStr payload[1]?
                             rid := ""
                             rcid := metaStr firstCandidate[0]? }
                    | _ => none
                  | _ => none
                else none
              | _ => none
            | _ => none
          else none
        | none => none
      | _ => none
  | _ => none

/-- One iteration of the outer `for _, line := range lines` loop of
`parseResponse` (constants.go): trim the line, skip it when blank, strip the
anti-hijacking marker, decode it as a top-level array (a line that fails to
decode yields nothing), and return the first item that yields a response. -/
def extractFromLine (dec : String → Option (List JVal)) (cs : List Char) :
    Option GenResponse :=
  let t := trimSpaceChars cs
  if t = [] then none
  else
    match dec (String.mk (trimAntiHijack t)) with
    | none => none
    | some root => root.findSome? (extractFromItem dec)

/-- Error message of `parseResponse` in constants.go. -/
def parseFailMsg : String := "failed to parse response"

/-- `parseResponse` of `internal/providers/gemini/constants.go`: split the
body into lines, return the first extractable response, or the fixed parse
error once every line is exhausted. -/
def parseResponse (dec : String → Option (List JVal)) (text : String) :
    Except String GenResponse :=
  match (splitNewline text.data).findSome? (extractFromLine dec) with
  | some r => Except.ok r
  | none => Except.error parseFailMsg

/-- Item extraction of the simplified client's `parseResponse` (the second
gemini source file): identical shape checks, but only the answer text is
returned. -/
def extractTextFromItem (dec : String → Option (List JVal)) (item : JVal) :
    Option String :=
  match item with
  | JVal.arr itemArray =>
    if itemArray.length < 3 then none
    else
      match itemArray[2]? with
      | some (JVal.str payloadStr) =>
        match dec payloadStr with
        | some payload =>
          if 4 < payload.length then
            match payload[4]? with
            | some (JVal.arr candidates) =>
              match candidates with
              | JVal.arr firstCandidate :: _ =>
                if 2 ≤ firstCandidate.length then
                  match firstCandidate[1]? with
                  | some (JVal.arr contentParts) =>
                    match contentParts with
                    | JVal.str resText :: _ => some resText
                    | _ => none
                  | _ => none
                else none
              | _ => none
            | _ => none
          else none
        | none => none
      | _ => none
  | _ => none

/-- Line handling of the simplified client's `parseResponse`. -/
def extractTextFromLine (dec : String → Option (List JVal)) (cs : List Char) :
    Option String :=
  let t := trimSpaceChars cs
  if t = [] then none
  else
    match dec (String.mk (trimAntiHijack t)) with
    | none => none
    | some root => root.findSome? (extractTextFromItem dec)

/-- Error-message head of the simplified client's `parseResponse`. -/
def legacyErrHead : String :=
  "failed to parse valid response from Gemini. Response excerpt: "

/-- The bounded diagnostic excerpt of the simplified client's
`parseResponse`: `debugText := text; if len(debugText) > 200 { debugText =
debugText[:200] }`. -/
def responseExcerpt (text : String) : String :=
  if 200 < text.length then String.mk (text.data.take 200) else text

/-- `parseResponse` of the simplified client: same line scan; when no line
yields text, fail with the parse error carrying the bounded excerpt of the
raw body. -/
def parseResponseLegacy (dec : String → Option (List JVal)) (text : String) :
    Except String String :=
  match (splitNewline text.data).findSome? (extractTextFromLine dec) with
  | some t => Except.ok t
  | none => Except.error (legacyErrHead ++ responseExcerpt text)

example : splitNewline "a\nb".data = [['a'], ['b']] := by decide
example : splitNewline "".data = [[]] := by decide
example : trimSpaceChars " a ".data = ['a'] := by decide
example : trimAntiHijack (antiHijackMagic ++ ['x']) = ['x'] := by decide

/-- A scan with `findSome?` skips any leading block of elements that all
yield `none`. -/
theorem findSome_append_none {α β : Type} {f : α → Option β} {pre rest : List α}
    (h : ∀ x ∈ pre, f x = none) :
    (pre ++ rest).findSome? f = rest.findSome? f := by
  induction pre with
  | nil => rfl
  | cons a t ih =>
    have ha : f a = none := h a (by simp)
    have ht : ∀ x ∈ t, f x = none := fun x hx => h x (by simp [hx])
    simp [List.findSome?_cons, ha, ih ht]

/-- `findSome?` returns `some b` exactly when the list decomposes into a
block of elements yielding `none`, followed by the first element yielding
`some b`. -/
theorem findSome_eq_some_iff {α β : Type} {f : α → Option β} {l : List α} {b : β} :
    l.findSome? f = some b ↔
      ∃ pre x post, l = pre ++ x :: post ∧ (∀ y ∈ pre, f y = none) ∧ f x = some b := by
  induction l with
  | nil =>
    simp only [List.findSome?_nil]
    constructor
    · intro h; cases h
    · rintro ⟨pre, x, post, habs, -, -⟩
      exact absurd habs (by simp)
  | cons a t ih =>
    cases ha : f a with
    | some v =>
      simp only [List.findSome?_cons, ha]
      constructor
      · intro h
        exact ⟨[], a, t, rfl, by simp, by rw [ha]; exact h⟩
      · rintro ⟨pre, x, post, hsplit, hpre, hx⟩
        cases pre with
        | nil =>
          simp only [List.nil_append, List.cons.injEq] at hsplit
          rw [hsplit.1] at ha
          rw [ha] at hx
          exact hx
        | cons p ps =>
          simp only [List.cons_append, List.cons.injEq] at hsplit
          have : f a = none := by
            rw [hsplit.1]
            exact hpre p (by simp)
          rw [this] at ha
          cases ha
    | none =>
      simp only [List.findSome?_cons, ha, ih]
      constructor
      · rintro ⟨pre, x, post, hsplit, hpre, hx⟩
        exact ⟨a :: pre, x, post, by rw [hsplit, List.cons_append], by
          intro y hy
          rcases List.mem_cons.mp hy with hy | hy
          · rw [hy]; exact ha
          · exact hpre y hy, hx⟩
      · rintro ⟨pre, x, post, hsplit, hpre, hx⟩
        cases pre with
        | nil =>
          simp only [List.nil_append, List.cons.injEq] at hsplit
          rw [hsplit.1] at ha
          rw [ha] at hx
          cases hx
        | cons p ps =>
          simp only [List.cons_append, List.cons.injEq] at hsplit
          exact ⟨ps, x, post, hsplit.2, fun y hy => hpre y (by simp [hsplit.1, hy]), hx⟩

/-- The canonical-shape computation of `extractFromItem`: when every shape
check of the Go code passes, the extracted response is the first
content-part string together with the metadata read from payload index 1 and
candidate index 0. -/
theorem extractFromItem_shape (dec : String → Option (List JVal))
    (itemArray payload firstCandidate candRest partsRest : List JVal)
    (payloadStr resText : String)
    (hlen3 : ¬ itemArray.length < 3)
    (hget2 : itemArray[2]? = some (JVal.str payloadStr))
    (hpay : dec payloadStr = some payload)
    (hlen4 : 4 < payload.length)
    (hget4 : payload[4]? = some (JVal.arr (JVal.arr firstCandidate :: candRest)))
    (hfc : 2 ≤ firstCandidate.length)
    (hfc1 : firstCandidate[1]? = some (JVal.arr (JVal.str resText :: partsRest))) :
    extractFromItem dec (JVal.arr itemArray) =
      some { text := resText, cid := metaStr payload[1]?, rid := "",
             rcid := metaStr firstCandidate[0]? } := by
  simp only [extractFromItem, hget2, hpay, hget4, hfc1, if_neg hlen3,
    if_pos hlen4, if_pos hfc]

/-- C1 — a canonical wrapped-array response body (a single line whose
decoded top-level array contains, after items yielding nothing, an item
array of at least three elements whose third element is a JSON-encoded
payload array with more than four elements, whose fifth element's first
candidate carries "Hello world" as the first element of its content-parts
array) makes `parseResponse` succeed with text exactly "Hello world"; the
metadata fields are whatever strings (possibly empty) sit at payload index 1
and candidate index 0, so no metadata field is required to be non-empty. -/
theorem parseResponse_canonical_hello (dec : String → Option (List JVal))
    (body : String) (lcs : List Char)
    (pre post itemArray payload firstCandidate candRest partsRest : List JVal)
    (payloadStr : String)
    (hline : splitNewline body.data = [lcs])
    (hne : trimSpaceChars lcs ≠ [])
    (hdec : dec (String.mk (trimAntiHijack (trimSpaceChars lcs))) =
      some (pre ++ JVal.arr itemArray :: post))
    (hpre : ∀ x ∈ pre, extractFromItem dec x = none)
    (hlen3 : ¬ itemArray.length < 3)
    (hget2 : itemArray[2]? = some (JVal.str payloadStr))
    (hpay : dec payloadStr = some payload)
    (hlen4 : 4 < payload.length)
    (hget4 : payload[4]? = some (JVal.arr (JVal.arr firstCandidate :: candRest)))
    (hfc : 2 ≤ firstCandidate.length)
    (hfc1 : firstCandidate[1]? = some (JVal.arr (JVal.str "Hello world" :: partsRest))) :
    parseResponse dec body =
      Except.ok { text := "Hello world", cid := metaStr payload[1]?, rid := "",
                  rcid := metaStr firstCandidate[0]? } := by
  have hitem := extractFromItem_shape dec itemArray payload firstCandidate candRest
    partsRest payloadStr "Hello world" hlen3 hget2 hpay hlen4 hget4 hfc hfc1
  have hlineRes : extractFromLine dec lcs =
      some { text := "Hello world", cid := metaStr payload[1]?, rid := "",
             rcid := metaStr firstCandidate[0]? } := by
    unfold extractFromLine
    rw [if_neg hne, hdec]
    show (pre ++ JVal.arr itemArray :: post).findSome? (extractFromItem dec) = _
    rw [findSome_append_none hpre]
    simp [List.findSome?_cons, hitem]
  unfold parseResponse
  rw [hline]
  simp [List.findSome?_cons, hlineRes]

/-- Payload JSON of the canonical "Hello world" response (what the third
element of the wrapper item decodes from). -/
def helloPayload : String := "[null,null,null,null,[[null,[\"Hello world\"]]]]"

/-- The canonical wrapped-array response line. -/
def helloLine : String :=
  "[[\"wrb.fr\",null,\"[null,null,null,null,[[null,[\\\"Hello world\\\"]]]]\"]]"

/-- The canonical raw body: anti-hijacking marker followed by the line. -/
def helloBody : String := String.mk (antiHijackMagic ++ helloLine.data)

/-- A decoder behaving exactly like `encoding/json.Unmarshal` into
`[]interface{}` on the two strings `parseResponse` decodes for the canonical
"Hello world" body. -/
def decHello : String → Option (List JVal) := fun s =>
  if s = helloLine then
    some [JVal.arr [JVal.str "wrb.fr", JVal.null, JVal.str helloPayload]]
  else if s = helloPayload then
    some [JVal.null, JVal.null, JVal.null, JVal.null,
      JVal.arr [JVal.arr [JVal.null, JVal.arr [JVal.str "Hello world"]]]]
  else none

/-- Witness for C1 at the concrete canonical body: the parse succeeds with
text "Hello world" and every metadata field empty. -/
theorem parseResponse_canonical_hello_witness :
    parseResponse decHello helloBody =
      Except.ok { text := "Hello world", cid := "", rid := "", rcid := "" } :=
  parseResponse_canonical_hello decHello helloBody helloBody.data
    [] [] [JVal.str "wrb.fr", JVal.null, JVal.str helloPayload]
    [JVal.null, JVal.null, JVal.null, JVal.null,
      JVal.arr [JVal.arr [JVal.null, JVal.arr [JVal.str "Hello world"]]]]
    [JVal.null, JVal.arr [JVal.str "Hello world"]] [] []
    helloPayload
    (by rfl) (by decide) (by rfl) (by simp) (by decide) (by rfl) (by rfl)
    (by decide) (by rfl) (by decide) (by rfl)

/-- C2 — `parseResponse` never fails because one line (or one nesting level
within a line) fails to decode: it returns the parse error exactly when
every line yields nothing, and returns success exactly for the first line
that yields an extractable response, all earlier lines having yielded
nothing. -/
theorem parseResponse_line_tolerance (dec : String → Option (List JVal))
    (body : String) :
    (parseResponse dec body = Except.error parseFailMsg ↔
      ∀ lcs ∈ splitNewline body.data, extractFromLine dec lcs = none)
  ∧ ∀ r : GenResponse, parseResponse dec body = Except.ok r ↔
      ∃ pre lcs post, splitNewline body.data = pre ++ lcs :: post
        ∧ (∀ x ∈ pre, extractFromLine dec x = none)
        ∧ extractFromLine dec lcs = some r := by
  unfold parseResponse
  cases hfind : (splitNewline body.data).findSome? (extractFromLine dec) with
  | none =>
    have hall := List.findSome?_eq_none_iff.mp hfind
    constructor
    · exact ⟨fun _ => hall, fun _ => rfl⟩
    · intro r
      constructor
      · intro habs; cases habs
      · rintro ⟨pre, lcs, post, hsplit, -, hsome⟩
        have : extractFromLine dec lcs = none := hall lcs (by rw [hsplit]; simp)
        rw [this] at hsome
        cases hsome
  | some r0 =>
    obtain ⟨pre, lcs, post, hsplit, hpre, hx⟩ := findSome_eq_some_iff.mp hfind
    constructor
    · constructor
      · intro habs; cases habs
      · intro hall
        have : extractFromLine dec lcs = none := hall lcs (by rw [hsplit]; simp)
        rw [this] at hx
        cases hx
    · intro r
      constructor
      · intro hok
        have : r0 = r := by cases hok; rfl
        exact ⟨pre, lcs, post, hsplit, hpre, by rw [← this]; exact hx⟩
      · rintro ⟨pre2, lcs2, post2, hsplit2, hpre2, hx2⟩
        have : (splitNewline body.data).findSome? (extractFromLine dec) = some r :=
          findSome_eq_some_iff.mpr ⟨pre2, lcs2, post2, hsplit2, hpre2, hx2⟩
        rw [hfind] at this
        cases this
        rfl

/-- A body whose first line is not JSON at all and whose second line is the
canonical "Hello world" line. -/
def mixedBody : String :=
  String.mk ("this line is not JSON".data ++ '\n' :: antiHijackMagic ++ helloLine.data)

/-- Witness for C2: on a body whose first line fails to decode,
`parseResponse` skips it and succeeds on the second line. -/
theorem parseResponse_line_tolerance_witness :
    parseResponse decHello mixedBody =
      Except.ok { text := "Hello world", cid := "", rid := "", rcid := "" } := by
  refine ((parseResponse_line_tolerance decHello mixedBody).2 _).mpr ?_
  refine ⟨["this line is not JSON".data], (antiHijackMagic ++ helloLine.data), [],
    by rfl, ?_, by rfl⟩
  intro x hx
  rw [List.mem_singleton.mp hx]
  rfl

/-- C3 — when no line of the raw body yields extractable text, the
simplified client's `parseResponse` fails with a parse error whose message
is the fixed head followed by an excerpt of the raw body; the excerpt is at
most 200 characters long, is an initial segment of the body (never the full
body beyond that bound), and has length 0 for the empty body. -/
theorem parseLegacy_fail_excerpt (dec : String → Option (List JVal))
    (body : String)
    (h : ∀ lcs ∈ splitNewline body.data, extractTextFromLine dec lcs = none) :
    parseResponseLegacy dec body =
      Except.error (legacyErrHead ++ responseExcerpt body)
    ∧ (responseExcerpt body).length ≤ 200
    ∧ (∃ rest, body.data = (responseExcerpt body).data ++ rest)
    ∧ (body = "" → (responseExcerpt body).length = 0) := by
  refine ⟨?_, ?_, ?_, ?_⟩
  · unfold parseResponseLegacy
    rw [List.findSome?_eq_none_iff.mpr h]
  · unfold responseExcerpt
    by_cases hlen : 200 < body.length
    · rw [if_pos hlen]
      have : (String.mk (body.data.take 200)).length = (body.data.take 200).length := rfl
      rw [this, List.length_take]
      omega
    · rw [if_neg hlen]
      omega
  · unfold responseExcerpt
    by_cases hlen : 200 < body.length
    · rw [if_pos hlen]
      exact ⟨body.data.drop 200, (List.take_append_drop 200 body.data).symm⟩
    · rw [if_neg hlen]
      exact ⟨[], by simp⟩
  · intro hb
    rw [hb]
    rfl

/-- Witness for C3 at the empty body: the excerpt has length 0 and the error
message is exactly the fixed head. -/
theorem parseLegacy_fail_excerpt_witness :
    (responseExcerpt "").length = 0
    ∧ parseResponseLegacy (fun _ => none) "" =
        Except.error (legacyErrHead ++ responseExcerpt "") :=
  ⟨(parseLegacy_fail_excerpt (fun _ => none) "" (by decide)).2.2.2 rfl,
   (parseLegacy_fail_excerpt (fun _ => none) "" (by decide)).1⟩

/-- C4 (amended) — on success the returned response is exactly what line
extraction produced for some line of the body: the text is the first
content-part string verbatim, which the parser does not require to be
non-empty. -/
theorem parseResponse_ok_text_source (dec : String → Option (List JVal))
    (body : String) (r : GenResponse)
    (hok : parseResponse dec body = Except.ok r) :
    ∃ lcs ∈ splitNewline body.data, extractFromLine dec lcs = some r := by
  unfold parseResponse at hok
  cases hfind : (splitNewline body.data).findSome? (extractFromLine dec) with
  | none => rw [hfind] at hok; cases hok
  | some r0 =>
    rw [hfind] at hok
    have hr : r0 = r := by cases hok; rfl
    obtain ⟨pre, lcs, post, hsplit, -, hx⟩ := findSome_eq_some_iff.mp hfind
    exact ⟨lcs, by rw [hsplit]; simp, by rw [← hr]; exact hx⟩

/-- Payload JSON of a response whose only content part is the empty string. -/
def emptyTextPayload : String := "[null,null,null,null,[[null,[\"\"]]]]"

/-- A syntactically valid wrapped-array response line whose candidate text
is the empty string. -/
def emptyTextRaw : String :=
  "[[\"wrb.fr\",null,\"[null,null,null,null,[[null,[\\\"\\\"]]]]\"]]"

/-- A decoder behaving exactly like `encoding/json.Unmarshal` into
`[]interface{}` on the two strings `parseResponse` decodes for
`emptyTextRaw`. -/
def decEmptyText : String → Option (List JVal) := fun s =>
  if s = emptyTextRaw then
    some [JVal.arr [JVal.str "wrb.fr", JVal.null, JVal.str emptyTextPayload]]
  else if s = emptyTextPayload then
    some [JVal.null, JVal.null, JVal.null, JVal.null,
      JVal.arr [JVal.arr [JVal.null, JVal.arr [JVal.str ""]]]]
  else none

/-- Counterexample to C4 as stated: `parseResponse` can succeed with an
empty text — on the valid JSON body `emptyTextRaw`, whose candidate's first
content part is the empty string, it returns success with text `""` instead
of reporting a parse failure. -/
theorem parseResponse_empty_text_ctrex :
    ¬ ∀ (dec : String → Option (List JVal)) (body : String) (r : GenResponse),
        parseResponse dec body = Except.ok r → r.text ≠ "" := by
  intro h
  exact h decEmptyText emptyTextRaw { text := "", cid := "", rid := "", rcid := "" }
    (by rfl) rfl

/-- Witness for the amended C4 at the canonical "Hello world" body. -/
theorem parseResponse_ok_text_source_witness :
    ∃ lcs ∈ splitNewline helloBody.data,
      extractFromLine decHello lcs =
        some { text := "Hello world", cid := "", rid := "", rcid := "" } :=
  parseResponse_ok_text_source decHello helloBody
    { text := "Hello world", cid := "", rid := "", rcid := "" } (by rfl)

/-- Match of the primary nonce pattern `"SNlM0e":"([^\x22]+)"` at the head of
a suffix: the literal key/value head, then a non-empty maximal run of
non-quote characters, closed by a quote.  Because the capture class excludes
the quote, a regexp match at this position exists exactly in this form. -/
def nonceCapAt (cs : List Char) : Option (List Char) :=
  match cs with
  | '"' :: 'S' :: 'N' :: 'l' :: 'M' :: '0' :: 'e' :: '"' :: ':' :: '"' :: rest =>
    let cap := rest.takeWhile (fun c => c ≠ '"')
    if cap = [] then none
    else
      match rest.drop cap.length with
      | '"' :: _ => some cap
      | _ => none
  | _ => none

/-- Leftmost match of the primary nonce pattern over the whole body, as
`regexp.FindStringSubmatch` returns it (the capture group). -/
def findNonce1 : List Char → Option (List Char)
  | [] => none
  | c :: tl =>
    match nonceCapAt (c :: tl) with
    | some cap => some cap
    | none => findNonce1 tl

/-- Match of the fallback nonce pattern `\["SNlM0e","([^\x22]+)"\]` at the
head of a suffix. -/
def nonceCapFallbackAt (cs : List Char) : Option (List Char) :=
  match cs with
  | '[' :: '"' :: 'S' :: 'N' :: 'l' :: 'M' :: '0' :: 'e' :: '"' :: ',' :: '"' :: rest =>
    let cap := rest.takeWhile (fun c => c ≠ '"')
    if cap = [] then none
    else
      match rest.drop cap.length with
      | '"' :: ']' :: _ => some cap
      | _ => none
  | _ => none

/-- Leftmost match of the fallback nonce pattern over the whole body. -/
def findNonce2 : List Char → Option (List Char)
  | [] => none
  | c :: tl =>
    match nonceCapFallbackAt (c :: tl) with
    | some cap => some cap
    | none => findNonce2 tl

/-- Go `strings.Contains(hay, needle)` on character lists. -/
def hasSub (needle hay : List Char) : Bool :=
  match hay with
  | [] => needle = []
  | _ :: tl => needle.isPrefixOf hay || hasSub needle tl

/-- Error message of `refreshSessionToken` when the body carries a sign-in
or login marker. -/
def authInvalidMsg : String :=
  "authentication failed: cookies invalid. Please provide __Secure-1PSIDTS in addition to __Secure-1PSID"

/-- Error message of `refreshSessionToken` when no nonce and no sign-in
marker is found. -/
def authNotFoundMsg : String := "authentication failed: SNlM0e not found"

/-- The token-extraction and failure-classification tail of
`refreshSessionToken` (constants.go): try the primary pattern, then the
fallback pattern; if neither matches, classify the failure by the presence
of a "Sign in" or "login" marker in the body. -/
def extractSessionToken (body : String) : Except String String :=
  match findNonce1 body.data with
  | some cap => Except.ok (String.mk cap)
  | none =>
    match findNonce2 body.data with
    | some cap => Except.ok (String.mk cap)
    | none =>
      Except.error
        (if hasSub "Sign in".data body.data || hasSub "login".data body.data
         then authInvalidMsg else authNotFoundMsg)

/-- C6 — when neither nonce-extraction pattern matches the landing-page
body, the handshake classifies the failure: with a sign-in/login marker in
the body it reports the credentials-invalid error (which demands the
secondary `__Secure-1PSIDTS` token), otherwise the nonce-not-found error. -/
theorem sessionToken_failure_classification (body : String)
    (h1 : findNonce1 body.data = none) (h2 : findNonce2 body.data = none) :
    ((hasSub "Sign in".data body.data || hasSub "login".data body.data) = true →
        extractSessionToken body = Except.error authInvalidMsg)
    ∧ ((hasSub "Sign in".data body.data || hasSub "login".data body.data) = false →
        extractSessionToken body = Except.error authNotFoundMsg) := by
  unfold extractSessionToken
  constructor
  · intro hm
    simp [h1, h2, hm]
  · intro hm
    simp [h1, h2, hm]

/-- Witness for C6: a body with a sign-in marker and no nonce yields the
credentials-invalid error; a plain body with neither yields the
nonce-not-found error. -/
theorem sessionToken_failure_classification_witness :
    extractSessionToken "Please Sign in to continue" = Except.error authInvalidMsg
    ∧ extractSessionToken "service unavailable" = Except.error authNotFoundMsg :=
  ⟨(sessionToken_failure_classification "Please Sign in to continue"
      (by decide) (by decide)).1 (by decide),
   (sessionToken_failure_classification "service unavailable"
      (by decide) (by decide)).2 (by decide)⟩

/-- `LoadCachedCookies` (constants.go) as a function of the long-lived
secret and the optional cache-file content: fails without a PSID, on an
unreadable file, or on a file that is empty after trimming; otherwise
returns the trimmed cached `__Secure-1PSIDTS`. -/
def LoadCachedCookies (psid : String) (cacheFile : Option String) :
    Except String String :=
  if psid = "" then Except.error "no PSID available"
  else
    match cacheFile with
    | none => Except.error "cache file unreadable"
    | some data =>
      let ts := String.mk (trimSpaceChars data.data)
      if ts = "" then Except.error "empty cache file" else Except.ok ts

/-- Whether an `error` return value of Go is nil. -/
def exceptOk {ε α : Type} : Except ε α → Bool
  | Except.ok _ => true
  | Except.error _ => false

/-- Outcome of the cached-cookie decision at the top of `Init`
(constants.go): the `__Secure-1PSIDTS` value the client proceeds with, and
whether `ClearCookieCache` was invoked. -/
structure CacheDecision where
  psidts : String
  cacheCleared : Bool
deriving DecidableEq, Repr

/-- The cached-cookie decision of `Init` (constants.go lines 106-120): when
a PSID is present, load the cache; if the configuration supplies a PSIDTS
that differs from a non-empty cached one, clear the cache and keep the
configuration value; adopt the cached value only when the configuration
supplies none; otherwise keep the configuration value. -/
def initCookieCacheStep (psid configPSIDTS : String) (cacheFile : Option String) :
    CacheDecision :=
  if psid ≠ "" then
    let loadRes := LoadCachedCookies psid cacheFile
    let cachedTS := match loadRes with
      | Except.ok ts => ts
      | Except.error _ => ""
    if configPSIDTS ≠ "" ∧ cachedTS ≠ "" ∧ configPSIDTS ≠ cachedTS then
      { psidts := configPSIDTS, cacheCleared := true }
    else if exceptOk loadRes = true ∧ cachedTS ≠ "" ∧ configPSIDTS = "" then
      { psidts := cachedTS, cacheCleared := false }
    else
      { psidts := configPSIDTS, cacheCleared := false }
  else
    { psidts := configPSIDTS, cacheCleared := false }

/-- A successful cache load implies a non-empty PSID and a non-empty cached
value. -/
theorem loadCachedOk {psid : String} {cacheFile : Option String} {ts : String}
    (h : LoadCachedCookies psid cacheFile = Except.ok ts) :
    psid ≠ "" ∧ ts ≠ "" := by
  unfold LoadCachedCookies at h
  by_cases hp : psid = ""
  · rw [if_pos hp] at h; cases h
  · rw [if_neg hp] at h
    refine ⟨hp, ?_⟩
    cases cacheFile with
    | none => cases h
    | some data =>
      simp only at h
      by_cases he : String.mk (trimSpaceChars data.data) = ""
      · rw [if_pos he] at h; cases h
      · rw [if_neg he] at h
        cases h
        exact he

/-- C7 — during initialization, when a cached rotating secret exists: if the
configuration also supplies a rotating secret and the two differ, the cache
is invalidated and the configuration value kept; whenever the configuration
supplies any rotating secret, that value is kept (the cached value is
adopted, without clearing, only when the configuration supplies none). -/
theorem initCache_config_wins (psid configPSIDTS : String)
    (cacheFile : Option String) (ts : String)
    (hload : LoadCachedCookies psid cacheFile = Except.ok ts) :
    (configPSIDTS ≠ "" → ts ≠ configPSIDTS →
      initCookieCacheStep psid configPSIDTS cacheFile =
        { psidts := configPSIDTS, cacheCleared := true })
    ∧ (configPSIDTS ≠ "" →
        (initCookieCacheStep psid configPSIDTS cacheFile).psidts = configPSIDTS)
    ∧ initCookieCacheStep psid "" cacheFile =
        { psidts := ts, cacheCleared := false } := by
  obtain ⟨hp, hts⟩ := loadCachedOk hload
  refine ⟨?_, ?_, ?_⟩
  · intro hc hdiff
    unfold initCookieCacheStep
    rw [if_pos hp, hload]
    rw [if_pos ⟨hc, hts, fun he => hdiff he.symm⟩]
  · intro hc
    unfold initCookieCacheStep
    rw [if_pos hp, hload]
    by_cases hdiff : configPSIDTS ≠ ts
    · rw [if_pos ⟨hc, hts, hdiff⟩]
    · rw [if_neg (by tauto)]
      rw [if_neg (by tauto)]
  · unfold initCookieCacheStep
    rw [if_pos hp, hload]
    rw [if_neg (by tauto)]
    rw [if_pos ⟨rfl, hts, rfl⟩]

/-- Witness for C7: config supplies "new", cache holds "old" — the cache is
cleared and "new" kept; with no config value the cached "old" is adopted. -/
theorem initCache_config_wins_witness :
    initCookieCacheStep "abc" "new" (some "old") =
      { psidts := "new", cacheCleared := true }
    ∧ initCookieCacheStep "abc" "" (some "old") =
      { psidts := "old", cacheCleared := false } :=
  ⟨(initCache_config_wins "abc" "new" (some "old") "old" (by rfl)).1
      (by decide) (by decide),
   (initCache_config_wins "abc" "new" (some "old") "old" (by rfl)).2.2⟩

/-- The session-token phase of `Init` (constants.go lines 135-150) as a
function of the outcomes of the first `refreshSessionToken` call, the
`RotateCookies` call, and the second `refreshSessionToken` call: returns the
surfaced result together with the number of handshake attempts and the
number of rotation attempts performed.  The retry of the handshake happens
only when the rotation succeeded; when the rotation fails, the original
handshake error is surfaced. -/
def initTokenPhase (hs1 rot hs2 : Except String Unit) :
    Except String Unit × Nat × Nat :=
  match hs1 with
  | Except.ok _ => (Except.ok (), 1, 0)
  | Except.error e1 =>
    match rot with
    | Except.ok _ =>
      match hs2 with
      | Except.ok _ => (Except.ok (), 2, 1)
      | Except.error e2 => (Except.error e2, 2, 1)
    | Except.error _ => (Except.error e1, 1, 1)

/-- Counterexample to C8 as stated: when the initial handshake fails and the
rotation attempt also fails, `Init` performs no retry of the handshake
(one handshake attempt, not two) and surfaces the original handshake error —
even though a retry would have succeeded here. -/
theorem initTokenPhase_ctrex :
    (initTokenPhase (Except.error "authentication failed: SNlM0e not found")
        (Except.error "rotation failed with status 403") (Except.ok ())).2.1 = 1
    ∧ initTokenPhase (Except.error "authentication failed: SNlM0e not found")
        (Except.error "rotation failed with status 403") (Except.ok ())
      = (Except.error "authentication failed: SNlM0e not found", 1, 1) := by
  constructor
  · rfl
  · rfl

/-- C8 (amended) — when the initial handshake fails, `Init` performs exactly
one rotation attempt; if the rotation succeeds, exactly one retry of the
handshake follows and the retry's outcome is surfaced; if the rotation
fails, no retry occurs and the original handshake error is surfaced; in all
cases at most two handshake attempts and one rotation attempt happen, with
no further automatic retries. -/
theorem initTokenPhase_retry_policy (e : String) (rot hs2 : Except String Unit) :
    (initTokenPhase (Except.error e) rot hs2).2.2 = 1
    ∧ (rot = Except.ok () →
        initTokenPhase (Except.error e) rot hs2 = (hs2, 2, 1))
    ∧ (∀ e2, rot = Except.error e2 →
        initTokenPhase (Except.error e) rot hs2 = (Except.error e, 1, 1))
    ∧ (initTokenPhase (Except.error e) rot hs2).2.1 ≤ 2 := by
  refine ⟨?_, ?_, ?_, ?_⟩
  · cases rot with
    | ok u => cases hs2 <;> rfl
    | error e2 => rfl
  · intro hr
    rw [hr]
    cases hs2 with
    | ok u => cases u; rfl
    | error e2 => rfl
  · intro e2 hr
    rw [hr]
    rfl
  · cases rot with
    | ok u => cases hs2 <;> simp [initTokenPhase]
    | error e2 => simp [initTokenPhase]

/-- Witness for the amended C8: failed handshake, failed rotation — one
handshake attempt, one rotation attempt, original error surfaced. -/
theorem initTokenPhase_retry_policy_witness :
    initTokenPhase (Except.error "no nonce") (Except.error "rotation down")
        (Except.ok ())
      = (Except.error "no nonce", 1, 1) :=
  (initTokenPhase_retry_policy "no nonce" (Except.error "rotation down")
      (Except.ok ())).2.2.1 "rotation down" rfl

/-- The `CookieStore` of constants.go: the three session secrets plus the
last-update timestamp (the mutex is a locking artefact, not data). -/
structure CookieStore where
  Secure1PSID : String
  Secure1PSIDTS : String
  Secure1PSIDCC : String
  UpdatedAt : Nat
deriving DecidableEq, Repr

/-- One response cookie from a `Set-Cookie` header. -/
structure HTTPCookie where
  name : String
  value : String
deriving DecidableEq, Repr

/-- The `for _, cookie := range resp.Cookies()` loop of `RotateCookies`
(constants.go): a `__Secure-1PSIDTS` cookie updates the rotating secret and
the timestamp and marks it found (the save-to-cache and http-client sync
calls in that branch are I/O side effects outside the Credential Set); a
`__Secure-1PSIDCC` cookie updates the context secret. -/
def applyRotationCookies (now : Nat) :
    CookieStore → Bool → List HTTPCookie → CookieStore × Bool
  | cs, found, [] => (cs, found)
  | cs, found, ck :: rest =>
    let afterTS :=
      if ck.name = "__Secure-1PSIDTS" then
        ({ cs with Secure1PSIDTS := ck.value, UpdatedAt := now }, true)
      else (cs, found)
    let afterCC :=
      if ck.name = "__Secure-1PSIDCC" then
        { afterTS.1 with Secure1PSIDCC := ck.value }
      else afterTS.1
    applyRotationCookies now afterCC afterTS.2 rest

/-- Error message of `RotateCookies` when a 200 response carries no new
rotating-secret cookie. -/
def noNewPSIDTSMsg : String := "no new __Secure-1PSIDTS cookie received"

/-- `RotateCookies` (constants.go) as a function of the current Credential
Set, the rotation endpoint's outcome (transport error, or status plus
`Set-Cookie` cookies), and the current time: returns the updated Credential
Set and the Go error value. -/
def RotateCookies (cs : CookieStore)
    (resp : Except String (Nat × List HTTPCookie)) (now : Nat) :
    CookieStore × Except String Unit :=
  match resp with
  | Except.error e =>
    (cs, Except.error ("failed to call rotation endpoint: " ++ e))
  | Except.ok (status, cks) =>
    if status ≠ 200 then
      (cs, Except.error ("rotation failed with status " ++ toString status))
    else
      match applyRotationCookies now cs false cks with
      | (cs2, true) => (cs2, Except.ok ())
      | (cs2, false) => (cs2, Except.error noNewPSIDTSMsg)

/-- The value the context secret ends with after the cookie loop: the last
`__Secure-1PSIDCC` cookie value, or the given default when none occurs. -/
def lastCC (d : String) (cks : List HTTPCookie) : String :=
  cks.foldl (fun acc ck => if ck.name = "__Secure-1PSIDCC" then ck.value else acc) d

/-- Cookie-loop invariant: without any `__Secure-1PSIDTS` cookie, the loop
leaves the rotating secret, the long-lived secret and the timestamp
untouched, folds the context secret to the last `__Secure-1PSIDCC` value,
and reports not-found. -/
theorem applyRotationCookies_no_ts (now : Nat) (cks : List HTTPCookie)
    (h : ∀ ck ∈ cks, ck.name ≠ "__Secure-1PSIDTS") :
    ∀ cs : CookieStore, applyRotationCookies now cs false cks =
      ({ cs with Secure1PSIDCC := lastCC cs.Secure1PSIDCC cks }, false) := by
  induction cks with
  | nil => intro cs; rfl
  | cons ck rest ih =>
    intro cs
    have hname : ck.name ≠ "__Secure-1PSIDTS" := h ck (by simp)
    have hrest : ∀ c ∈ rest, c.name ≠ "__Secure-1PSIDTS" :=
      fun c hc => h c (by simp [hc])
    unfold applyRotationCookies
    simp only [if_neg hname]
    by_cases hcc : ck.name = "__Secure-1PSIDCC"
    · simp [hcc, ih hrest, lastCC]
    · simp [hcc, ih hrest, lastCC]

/-- C10 — on an HTTP 200 rotation response without a `__Secure-1PSIDTS`
cookie, `RotateCookies` returns the no-new-cookie error and leaves the
rotating secret, the long-lived secret and the timestamp unchanged; the
error path is not fully atomic: a `__Secure-1PSIDCC` cookie in the same
response still overwrites the context secret (to the last such value)
before the error is returned. -/
theorem rotateCookies_no_psidts (cs : CookieStore) (cks : List HTTPCookie)
    (now : Nat) (h : ∀ ck ∈ cks, ck.name ≠ "__Secure-1PSIDTS") :
    RotateCookies cs (Except.ok (200, cks)) now =
      ({ cs with Secure1PSIDCC := lastCC cs.Secure1PSIDCC cks },
       Except.error noNewPSIDTSMsg) := by
  have happ := applyRotationCookies_no_ts now cks h cs
  simp only [RotateCookies]
  rw [if_neg (by omega), happ]

/-- Witness for C10: a 200 response carrying only a `__Secure-1PSIDCC`
cookie yields the error, keeps PSID/PSIDTS/UpdatedAt, and overwrites the
context secret. -/
theorem rotateCookies_no_psidts_witness :
    RotateCookies { Secure1PSID := "psid", Secure1PSIDTS := "ts0",
                    Secure1PSIDCC := "cc0", UpdatedAt := 7 }
      (Except.ok (200, [{ name := "__Secure-1PSIDCC", value := "ccNew" }])) 99
    = ({ Secure1PSID := "psid", Secure1PSIDTS := "ts0",
         Secure1PSIDCC := "ccNew", UpdatedAt := 7 },
       Except.error noNewPSIDTSMsg) :=
  rotateCookies_no_psidts
    { Secure1PSID := "psid", Secure1PSIDTS := "ts0",
      Secure1PSIDCC := "cc0", UpdatedAt := 7 }
    [{ name := "__Secure-1PSIDCC", value := "ccNew" }] 99 (by decide)

/-- JSON string escaping used by `encoding/json.Marshal` for the characters
that occur in request envelopes (quote, backslash, newline; other characters
pass through — HTML escaping of Go is irrelevant to the claims here). -/
def escapeChar (c : Char) : List Char :=
  if c = '"' then ['\\', '"']
  else if c = '\\' then ['\\', '\\']
  else if c = '\n' then ['\\', 'n']
  else [c]

/-- JSON encoding of a string value. -/
def encodeString (s : String) : String :=
  String.mk ('"' :: (s.data.map escapeChar).flatten ++ ['"'])

mutual

/-- `encoding/json.Marshal` on the modelled values. -/
def encodeJVal : JVal → String
  | JVal.null => "null"
  | JVal.bool true => "true"
  | JVal.bool false => "false"
  | JVal.num n => toString n
  | JVal.str s => encodeString s
  | JVal.arr xs => "[" ++ encodeJValList xs ++ "]"
  | JVal.obj fs => "\x7b" ++ encodeJValObj fs ++ "\x7d"

/-- Comma-joined encoding of array elements. -/
def encodeJValList : List JVal → String
  | [] => ""
  | [x] => encodeJVal x
  | x :: y :: xs => encodeJVal x ++ "," ++ encodeJValList (y :: xs)

/-- Comma-joined encoding of object fields. -/
def encodeJValObj : List (String × JVal) → String
  | [] => ""
  | [(k, v)] => encodeString k ++ ":" ++ encodeJVal v
  | (k, v) :: p :: fs =>
    encodeString k ++ ":" ++ encodeJVal v ++ "," ++ encodeJValObj (p :: fs)

end

/-- The generation endpoint URL (constants.go). -/
def EndpointGenerate : String :=
  "https://gemini.google.com/_/BardChatUi/data/assistant.lamda.BardFrontendService/StreamGenerate"

/-- Status and body of an HTTP response to the generation POST. -/
structure HTTPResult where
  status : Nat
  body : String

/-- One generation POST as issued by `GenerateContent`: the URL, the nonce
(sent both as the `at` form field and query parameter; `at` is reserved in
Lean, hence the field name `nonce`), and the `f.req` envelope. -/
structure GenRequest where
  url : String
  nonce : String
  fReq : String

/-- The per-call option record of `GenerateContent` (only the model name;
it is populated from the options and not read afterwards, as in the Go
code). -/
structure GenerateConfig where
  Model : String

/-- `GenerateContent` (constants.go) as a function of the network (`post`),
the JSON decoder, the client's session nonce `at`, the prompt and the
options: apply the options to the default config, fail with the
precondition error when the nonce is empty, otherwise build the
doubly-JSON-encoded envelope, issue the POST, check the status and parse the
body.  The second component lists the HTTP requests issued during the
call. -/
def GenerateContent (post : GenRequest → Except String HTTPResult)
    (dec : String → Option (List JVal)) (at_ : String) (prompt : String)
    (options : List (GenerateConfig → GenerateConfig)) :
    Except String GenResponse × List GenRequest :=
  let cfg := options.foldl (fun c opt => opt c) { Model := "gemini-pro" }
  if at_ = "" then (Except.error "client not initialized", [])
  else
    let innerJSON :=
      encodeJVal (JVal.arr [JVal.arr [JVal.str prompt], JVal.null, JVal.null])
    let outerJSON := encodeJVal (JVal.arr [JVal.null, JVal.str innerJSON])
    let r : GenRequest := { url := EndpointGenerate, nonce := at_, fReq := outerJSON }
    let _ := cfg
    match post r with
    | Except.error e => (Except.error e, [r])
    | Except.ok resp =>
      if resp.status ≠ 200 then
        (Except.error ("generate failed with status: " ++ toString resp.status), [r])
      else
        (parseResponse dec resp.body, [r])

/-- C5 — for every network behaviour, decoder, prompt and option list,
`GenerateContent` on a client whose session nonce is empty returns the
precondition error "client not initialized" immediately, and the list of
HTTP requests issued is empty: no network call happens before the nonce
check. -/
theorem generateContent_requires_nonce
    (post : GenRequest → Except String HTTPResult)
    (dec : String → Option (List JVal)) (prompt : String)
    (options : List (GenerateConfig → GenerateConfig)) :
    GenerateContent post dec "" prompt options =
      (Except.error "client not initialized", []) := by
  unfold GenerateContent
  rw [if_pos rfl]
